import Mathlib

/-!
# Verification of the LSAC Status Checker core

Shallow embedding of the change-detection, token-lifecycle, notification
throttling, configuration parsing and history-persistence logic of
`lsac_checker.py` and `lambda_handler.py`, with theorems settling the
specification claims about them.

Conventions of the embedding:
* Python dictionaries read from JSON are modelled as structures with
  `Option` fields where the code uses `.get` (absent key), and as
  association lists (`List (String × _)`) where the code uses a dict as a
  map; Python dict assignment is `dictInsert` (replace in place, else
  append, preserving insertion order).
* Exceptions that the code can raise out of a function are modelled with
  `Except`; exceptions the code catches internally are modelled by the
  caught branch directly.
* Timestamps are seconds since an epoch aligned to local midnight, so that
  `datetime.now(tz).hour` is `now / 3600 % 24` and
  `now.replace(hour := H, minute := 0, second := 0)` is
  `now - now % 86400 + H * 3600`.
-/

set_option autoImplicit false

namespace LSAC

/-! ## Raw vendor data (the JSON shapes the code reads)

`RawApp` models one element of `data['applicationStatus']` restricted to the
fields the embedded functions read: `app.get('applicationTitle')`,
`app.get('status', {}).get('applicationStatus', [])` and
`app.get('checklist', [])`.  A checklist item is read only through
`item.get('isCompleted')`, whose missing-key/`None` case is truthiness-equivalent
to `false`. -/

/-- One entry of the vendor `status.applicationStatus` list; the code reads
only `statusDisplayDescription`, via `.get(..., 'Unknown')`. -/
structure StatusEntry where
  statusDisplayDescription : Option String
  deriving DecidableEq, Repr

/-- One checklist item; the code reads the truthiness of
`item.get('isCompleted')` and echoes `item.get('item')`. -/
structure ChecklistItem where
  isCompleted : Bool
  item : Option String
  deriving DecidableEq, Repr

/-- One letter-of-recommendation record, restricted to the fields
`display_status` echoes.  `prefixField` stands for the vendor key `prefix`
(that word is unusable as a Lean field name). -/
structure Lor where
  prefixField : Option String
  firstName : Option String
  lastName : Option String
  recommendationDate : Option String
  signatureFlag : Bool
  deriving DecidableEq, Repr

/-- One fee record: `fee.get('displayDescription', 'Unknown')` and
`fee.get('waivedFlag', False)`. -/
structure Fee where
  displayDescription : Option String
  waivedFlag : Bool
  deriving DecidableEq, Repr

/-- One scholarship record: `scholarship.get('scholarshipTypeName')` and
`scholarship.get('amount', 0)`.  The amount is modelled as a `Nat`; only its
rendered digit string reaches the output. -/
structure Scholarship where
  scholarshipTypeName : Option String
  amount : Nat
  deriving DecidableEq, Repr

/-- The `data.get('profile', {})` record, restricted to the fields
`display_status` echoes.  An absent profile is the record with every field
missing; `finalTranscript` is the truthiness of
`profile.get('transcript', {}).get('finalTranscript')`.  Scalar fields are
modelled by their rendered text. -/
structure Profile where
  firstName : Option String
  lastName : Option String
  emailAddress : Option String
  lsacAcctNo : Option String
  finalTranscript : Bool
  deriving DecidableEq, Repr

/-- One element of the vendor `applicationStatus` list, restricted to the
fields read by `check_for_changes`, `save_status_history` and
`display_status`.  `message` is the inner text
`app.get('message', {}).get('message')` (`none` when the message dict or its
text is absent/falsy); `fee` and `scholarship` entries may be null/empty
dicts (`none`), matching the code's `fees[0]` / `scholarships[0]` truthiness
checks. -/
structure RawApp where
  applicationTitle : Option String
  status : List StatusEntry
  checklist : List ChecklistItem
  message : Option String
  lor : List Lor
  fee : List (Option Fee)
  scholarship : List (Option Scholarship)
  deriving DecidableEq, Repr

/-- The vendor response body, restricted to the fields the embedded functions
read: `data.get('schoolId')`, `data.get('profile', {})` and
`data.get('applicationStatus', [])`. -/
structure RawData where
  schoolId : Option Int
  profile : Profile
  applicationStatus : List RawApp
  deriving DecidableEq, Repr

/-- `status_list[0].get('statusDisplayDescription', 'Unknown') if status_list
else 'Unknown'` — the status text used by both `check_for_changes` and
`save_status_history`. -/
def currentStatus (app : RawApp) : String :=
  match app.status with
  | [] => "Unknown"
  | e :: _ => e.statusDisplayDescription.getD "Unknown"

/-- `sum(1 for item in app.get('checklist', []) if item.get('isCompleted'))`. -/
def checklistComplete (app : RawApp) : Nat :=
  app.checklist.countP (fun item => item.isCompleted)

/-! ## Persisted history (`status_history.json`) -/

/-- One element of the persisted `applications` list, as written by
`save_status_history`. -/
structure OldApp where
  program : Option String
  status : String
  checklist_complete : Nat
  checklist_total : Nat
  deriving DecidableEq, Repr

/-- The per-school record stored in the history document (`status_info` in
`save_status_history`). -/
structure StatusInfo where
  timestamp : String
  school_id : Option Int
  applications : List OldApp
  deriving DecidableEq, Repr

/-- The whole history document: a JSON object mapping school name to its last
snapshot, modelled as an association list with distinct keys in insertion
order. -/
abbrev HistoryDoc : Type := List (String × StatusInfo)

/-- Python dict assignment `d[k] = v` on an association list: replace the
first binding of `k` in place, otherwise append at the end. -/
def dictInsert {α : Type} : List (String × α) → String → α → List (String × α)
  | [], k, v => [(k, v)]
  | (k', v') :: rest, k, v =>
      if k' = k then (k, v) :: rest else (k', v') :: dictInsert rest k v

/-! ## Change detection (`check_for_changes`) -/

/-- A change event, as appended to `changes` by `check_for_changes`:
`{'type': 'status', 'program': …, 'old': …, 'new': …}` or
`{'type': 'checklist', 'program': …, 'items_completed': …}`. -/
inductive Change where
  | statusEv (program : Option String) (old new : String)
  | checklistEv (program : Option String) (items_completed : Nat)
  deriving DecidableEq, Repr

/-- Whether a change event has `'type': 'status'`. -/
def Change.isStatusEv : Change → Bool
  | .statusEv _ _ _ => true
  | .checklistEv _ _ => false

/-- Whether a change event has `'type': 'checklist'`. -/
def Change.isChecklistEv : Change → Bool
  | .statusEv _ _ _ => false
  | .checklistEv _ _ => true

/-- The body of the comparison loop of `check_for_changes` for one index `i`
with `old_app = old_status['applications'][i]` and
`app = data['applicationStatus'][i]`: first the status comparison, then the
checklist-count comparison. -/
def appChanges (app : RawApp) (old_app : OldApp) : List Change :=
  let cur := currentStatus app
  let statusPart : List Change :=
    if old_app.status ≠ cur then [Change.statusEv app.applicationTitle old_app.status cur] else []
  let new_complete := checklistComplete app
  let checklistPart : List Change :=
    if old_app.checklist_complete < new_complete then
      [Change.checklistEv app.applicationTitle (new_complete - old_app.checklist_complete)]
    else []
  statusPart ++ checklistPart

/-- The loop `for i, app in enumerate(data.get('applicationStatus', []))`
guarded by `i < len(old_status['applications'])`: compares positionally up to
the shorter of the two lists, in current order. -/
def checkApps : List RawApp → List OldApp → List Change
  | [], _ => []
  | _, [] => []
  | app :: apps, old_app :: olds => appChanges app old_app ++ checkApps apps olds

/-- `check_for_changes(school_name, data)`.  `historyDoc = none` models the
`except` branch of the history read (no file / unreadable file); a present
document without an entry for `school_name` is the `school_name not in
history` branch. -/
def check_for_changes (historyDoc : Option HistoryDoc) (school_name : String)
    (data : RawData) : List Change :=
  match historyDoc with
  | none => []
  | some history =>
    match List.lookup school_name history with
    | none => []
    | some old_status => checkApps data.applicationStatus old_status.applications

/-! ## History persistence (`save_status_history`) -/

/-- The per-application record built by `save_status_history`. -/
def normalizeApp (app : RawApp) : OldApp :=
  { program := app.applicationTitle
    status := currentStatus app
    checklist_complete := checklistComplete app
    checklist_total := app.checklist.length }

/-- The `status_info` record built by `save_status_history`; `now` is
`datetime.now().isoformat()`. -/
def statusInfoOf (now : String) (data : RawData) : StatusInfo :=
  { timestamp := now
    school_id := data.schoolId
    applications := data.applicationStatus.map normalizeApp }

/-- `save_status_history(school_name, data)` applied to a readable prior
document `history` (the unreadable case resets `history` to `{}` before the
same update). -/
def save_status_history (history : HistoryDoc) (school_name : String)
    (data : RawData) (now : String) : HistoryDoc :=
  dictInsert history school_name (statusInfoOf now data)

/-! ## Token persistence (`save_token` / `load_token`, `token.json`)

Timestamps here are `int(datetime.now().timestamp())` values, modelled as
`Int`. -/

/-- The persisted token record as read back by `load_token`: every key is
accessed optionally (`.get('expires_at', 0)`) or by raising subscript
(`data['token']`, `data['guid']`), so all fields are `Option`s. -/
structure TokenData where
  token : Option String
  guid : Option String
  expires_at : Option Int
  deriving DecidableEq, Repr

/-- `load_token()`.  `stored = none` collapses the branches that return
`False` before the expiry check: file absent or unreadable, Secrets Manager
error, missing `token_data` field, or falsy parsed data.  `Except.error`
models an uncaught `KeyError` escaping `load_token` (the subscripts
`data['token']` / `data['guid']` sit outside every `try`).  `Except.ok none`
is `return False`; `Except.ok (some (t, g))` is `return True` with
`self.token = t` and `self.guid = g`. -/
def load_token (stored : Option TokenData) (now : Int) :
    Except String (Option (String × String)) :=
  match stored with
  | none => Except.ok none
  | some data =>
    let expires_at := data.expires_at.getD 0
    if expires_at ≤ now then Except.ok none
    else
      match data.token, data.guid with
      | some t, some g => Except.ok (some (t, g))
      | _, _ => Except.error "KeyError"

/-- The decoded JWT payload dictionary, restricted to the only key
`save_token` reads: `token_data.get('exp')`. -/
structure JwtPayload where
  exp : Option Int
  deriving DecidableEq, Repr

/-- The record `save_token` persists. -/
structure TokenPersist where
  token : String
  guid : String
  expires_at : Option Int
  deriving DecidableEq, Repr

/-- `save_token()` up to the construction of `token_payload`.  `decoded`
is the outcome of the `try` block that splits the token on `'.'`,
base64-decodes the middle part and JSON-parses it: `none` when any of those
steps raises (the `except` branch, which substitutes `now + 24*60*60`),
`some payload` when decoding succeeds — in which case `expires_at` is
`payload.get('exp')`, which is `None` when the payload has no `exp` claim. -/
def save_token_payload (token : String) (guid : String)
    (decoded : Option JwtPayload) (now : Int) : TokenPersist :=
  let expires_at : Option Int :=
    match decoded with
    | some payload => payload.exp
    | none => some (now + 24 * 60 * 60)
  { token := token, guid := guid, expires_at := expires_at }

/-! ## Notification throttling (`should_send_email`, `lambda_handler.py`)

Wall-clock instants in the configured time zone are modelled as seconds since
an epoch aligned to local midnight (`now : Nat`), so `datetime.now(tz).hour`
is `hourOf now` and `now.replace(hour=9, minute=0, second=0, microsecond=0)`
is `today9am now`.  The parsed `last_email_sent` instant may be any `Int` on
the same scale. -/

/-- `NO_CHANGE_EMAIL_HOUR = 9`. -/
def NO_CHANGE_EMAIL_HOUR : Nat := 9

/-- `datetime.now(tz).hour`. -/
def hourOf (now : Nat) : Nat := now / 3600 % 24

/-- `now.replace(hour=NO_CHANGE_EMAIL_HOUR, minute=0, second=0,
microsecond=0)`. -/
def today9am (now : Nat) : Nat :=
  now - now % 86400 + NO_CHANGE_EMAIL_HOUR * 3600

/-- The reason strings returned by `should_send_email`. -/
inductive SendReason where
  | changes_detected
  | not_9am_hour (current_hour : Nat)
  | no_previous_email
  | timestamp_parse_error
  | daily_update
  | already_sent_since_yesterday_9am
  deriving DecidableEq, Repr

/-- `should_send_email(has_changes)`.  `last_email_sent` models
`load_email_tracking().get('last_email_sent')` composed with
`datetime.fromisoformat`: `none` when the tracking file is absent, unreadable
or has no (truthy) `last_email_sent` field; `some none` when the stored
string does not parse (the `except` branch); `some (some t)` when it parses
to the instant `t`. -/
def should_send_email (has_changes : Bool) (now : Nat)
    (last_email_sent : Option (Option Int)) : Bool × SendReason :=
  if has_changes then (true, SendReason.changes_detected)
  else if hourOf now ≠ NO_CHANGE_EMAIL_HOUR then
    (false, SendReason.not_9am_hour (hourOf now))
  else
    match last_email_sent with
    | none => (true, SendReason.no_previous_email)
    | some none => (true, SendReason.timestamp_parse_error)
    | some (some last_email_time) =>
      let yesterday_9am : Int := (today9am now : Int) - 86400
      if last_email_time < yesterday_9am then (true, SendReason.daily_update)
      else (false, SendReason.already_sent_since_yesterday_9am)

/-! ## Configuration parsing (`load_schools_from_file`)

String plumbing from the Python standard library is embedded at the
character-list level: `str.strip` (restricted to ASCII whitespace),
`str.startswith`, `'|' in line`, `line.split('|', 1)`,
`re.search(r'guid=([^&\s]+)', link)` and `urllib.parse.unquote`
(restricted to single-byte percent escapes; multi-byte UTF-8 recombination
is out of scope since identifiers are URL-safe base64 text). -/

/-- `str.strip()` on the characters of a line. -/
def pyStripChars (l : List Char) : List Char :=
  (((l.dropWhile Char.isWhitespace).reverse).dropWhile Char.isWhitespace).reverse

/-- `str.strip()`. -/
def pyStrip (s : String) : String := ⟨pyStripChars s.data⟩

/-- `s.startswith(p)`. -/
def strStartsWith (s p : String) : Bool := p.data.isPrefixOf s.data

/-- `c in s` for a single character. -/
def containsChar (s : String) (c : Char) : Bool := s.data.contains c

/-- Whether a character is not the pipe separator. -/
def notPipe (c : Char) : Bool := c ≠ '|'

/-- `line.split('|', 1)` when `'|' in line`: the part before the first `'|'`
and the part after it. -/
def splitPipeOnce (s : String) : String × String :=
  (⟨s.data.takeWhile notPipe⟩, ⟨(s.data.dropWhile notPipe).tail⟩)

/-- A character ending the `[^&\s]+` capture of the GUID pattern. -/
def isGuidStop (c : Char) : Bool := c = '&' || c.isWhitespace

/-- `re.search(r'guid=([^&\s]+)', link)`: scan left to right for the literal
`guid=` followed by at least one non-stop character; on a position where the
literal matches but the capture would be empty, scanning resumes at the next
character, as `re.search` does. -/
def searchGuid : List Char → Option (List Char)
  | [] => none
  | c :: rest =>
    if c = 'g' then
      match rest with
      | 'u' :: 'i' :: 'd' :: '=' :: tl =>
        let v := tl.takeWhile (fun ch => ¬ isGuidStop ch)
        if v.isEmpty then searchGuid rest else some v
      | _ => searchGuid rest
    else searchGuid rest

/-- Value of a hexadecimal digit, as accepted by `urllib.parse.unquote`. -/
def hexVal (c : Char) : Option Nat :=
  let n := c.toNat
  if 48 ≤ n ∧ n ≤ 57 then some (n - 48)
  else if 97 ≤ n ∧ n ≤ 102 then some (n - 87)
  else if 65 ≤ n ∧ n ≤ 70 then some (n - 55)
  else none

/-- The byte encoded by the next two characters, when both are hex digits. -/
def peekHex : List Char → Option Nat
  | a :: b :: _ =>
    (match hexVal a, hexVal b with
     | some x, some y => some (16 * x + y)
     | _, _ => none)
  | _ => none

/-- Scanner for `unquoteChars`: `skip` counts characters already consumed by
a decoded escape. -/
def unquoteAux : Nat → List Char → List Char
  | skip + 1, _ :: rest => unquoteAux skip rest
  | _ + 1, [] => []
  | 0, [] => []
  | 0, c :: rest =>
    if c = '%' then
      match peekHex rest with
      | some n => Char.ofNat n :: unquoteAux 2 rest
      | none => '%' :: unquoteAux 0 rest
    else c :: unquoteAux 0 rest

/-- `urllib.parse.unquote`, one pass: `%xy` with two hex digits becomes the
character of code `16*x + y`; a `%` not followed by two hex digits is kept
and scanning resumes at the following character; decoded characters are never
re-examined (decoding happens exactly once). -/
def unquoteChars (l : List Char) : List Char := unquoteAux 0 l

/-- `urllib.parse.unquote` on a string. -/
def unquote (s : String) : String := ⟨unquoteChars s.data⟩

/-- The school mapping being built: name → decoded GUID, insertion order
preserved, distinct keys (a Python dict). -/
abbrev Schools : Type := List (String × String)

/-- The tail of the loop body of `load_schools_from_file` once `link` (and
possibly `school_name`) are set: extract the GUID with the regex, URL-decode
it once, fall back to `School_{len(schools) + 1}` when no name was
determined, and store the entry; a link without a GUID match adds nothing. -/
def addEntry (schools : Schools) (school_name : Option String) (link : String) :
    Schools :=
  match searchGuid link.data with
  | none => schools
  | some g =>
    let guid : String := ⟨unquoteChars g⟩
    let name := school_name.getD ("School_" ++ toString (schools.length + 1))
    dictInsert schools name guid

/-- One iteration of the `while i < len(lines)` loop of
`load_schools_from_file` (every branch advances `i` by exactly one).
`prevLine` is `lines[i - 1]` unstripped, `none` at `i = 0`. -/
def processLine (schools : Schools) (prevLine : Option String) (rawLine : String) :
    Schools :=
  let line := pyStrip rawLine
  if line = "" ∨ strStartsWith line "#" then schools
  else if containsChar line '|' then
    let parts := splitPipeOnce line
    let school_name := pyStrip parts.1
    let link := pyStrip parts.2
    addEntry schools (if school_name = "" then none else some school_name) link
  else if strStartsWith line "http" then
    let school_name : Option String :=
      match prevLine with
      | none => none
      | some p =>
        let prev_line := pyStrip p
        if prev_line ≠ "" ∧ ¬ strStartsWith prev_line "#" ∧
            ¬ strStartsWith prev_line "http" then some prev_line
        else none
    addEntry schools school_name line
  else schools

/-- The whole parsing loop of `load_schools_from_file` over the raw lines of
the file, threading the mapping and the previous raw line. -/
def loadSchoolsLoop (schools : Schools) (prevLine : Option String) :
    List String → Schools
  | [] => schools
  | rawLine :: rest =>
      loadSchoolsLoop (processLine schools prevLine rawLine) (some rawLine) rest

/-- `load_schools_from_file` on a readable file with the given lines. -/
def load_schools_from_file (lines : List String) : Schools :=
  loadSchoolsLoop [] none lines

/-! ## The output of `main` and the lambda's change flag

`lambda_handler` captures everything `main` prints and then computes
`has_changes = '🚨' in output`.  The output is modelled as the list of
printed lines of the per-school loop, `display_status` and the closing
summary, including every line that interpolates run data (school name,
profile fields, program titles, status texts, message text, checklist item
text, recommender names and dates, fee and scholarship strings, change
details, exception text).  Constant lines outside the loop (credential and
schools-file banners, login progress) contain no `🚨` and are omitted, as
are blank spacer lines, which contain no characters. -/

/-- How Python renders an optional value in an f-string: `None` when
absent. -/
def optStr (o : Option String) : String := o.getD "None"

/-- `str.upper()` (ASCII). -/
def strUpper (s : String) : String := ⟨s.data.map Char.toUpper⟩

/-- `'🚨 ' * 10`, the alert banner line. -/
def bannerLine : String :=
  "🚨 🚨 🚨 🚨 🚨 🚨 🚨 🚨 🚨 🚨 "

/-- `'=' * 70`, the display separator line. -/
def sepEq : String := ⟨List.replicate 70 '='⟩

/-- `'-' * 70`, the per-application separator line. -/
def sepDash : String := ⟨List.replicate 70 '-'⟩

/-- Concatenation of the lists produced for each element. -/
def listFlatMap {α β : Type} (f : α → List β) : List α → List β
  | [] => []
  | a :: rest => f a ++ listFlatMap f rest

/-- The decimal digit character of `d % 10`. -/
def digitChar (d : Nat) : Char := Char.ofNat (48 + d % 10)

/-- Digit renderer for `natRepr` (`fuel` bounds the recursion depth). -/
def natReprAux : Nat → Nat → List Char
  | 0, _ => []
  | fuel + 1, n =>
    if n < 10 then [digitChar n]
    else natReprAux fuel (n / 10) ++ [digitChar (n % 10)]

/-- How a number reaches the output: its decimal digit string.  (Python's
grouped or two-decimal numeric formats differ only in digits, comma and
period; no numeric rendering can carry the alarm character.) -/
def natRepr (n : Nat) : String := ⟨natReprAux (n + 1) n⟩

/-- The status text `display_status` prints: unlike `check_for_changes` it
writes `Status information not available` when the status list is empty. -/
def displayStatusText (app : RawApp) : String :=
  match app.status with
  | [] => "Status information not available"
  | e :: _ => e.statusDisplayDescription.getD "Unknown"

/-- Scanner for `re.sub('<[^>]*>', '', s)`: `skip` counts characters of a
matched tag still to drop.  A `<` is removed together with everything up to
the first following `>` when one exists, and kept literally otherwise. -/
def stripTagsAux : Nat → List Char → List Char
  | skip + 1, _ :: rest => stripTagsAux skip rest
  | _ + 1, [] => []
  | 0, [] => []
  | 0, c :: rest =>
    if c = '<' then
      if rest.contains '>' then
        stripTagsAux ((rest.takeWhile (fun ch => ch ≠ '>')).length + 1) rest
      else c :: stripTagsAux 0 rest
    else c :: stripTagsAux 0 rest

/-- `re.sub('<[^>]*>', '', s)` on the characters of the message. -/
def stripTags (l : List Char) : List Char := stripTagsAux 0 l

/-- Scanner for `str.replace('&nbsp;', ' ')`: `skip` counts characters of a
matched entity still to drop. -/
def replaceNbspAux : Nat → List Char → List Char
  | skip + 1, _ :: rest => replaceNbspAux skip rest
  | _ + 1, [] => []
  | 0, [] => []
  | 0, c :: rest =>
    if c = '&' then
      match rest with
      | 'n' :: 'b' :: 's' :: 'p' :: ';' :: _ => ' ' :: replaceNbspAux 5 rest
      | _ => c :: replaceNbspAux 0 rest
    else c :: replaceNbspAux 0 rest

/-- `str.replace('&nbsp;', ' ')`. -/
def replaceNbsp (l : List Char) : List Char := replaceNbspAux 0 l

/-- The cleaned message text `display_status` prints:
`re.sub('<[^>]*>', '', message['message']).replace('&nbsp;', ' ').strip()`,
or `""` when the message dict or its text is absent/falsy. -/
def messageText (app : RawApp) : String :=
  match app.message with
  | none => ""
  | some raw => pyStrip ⟨replaceNbsp (stripTags raw.data)⟩

/-- `f"{lor.get('prefix', '')} {lor.get('firstName', '')}
{lor.get('lastName', '')}".strip()`. -/
def lorName (l : Lor) : String :=
  pyStrip (l.prefixField.getD "" ++ " " ++ l.firstName.getD "" ++ " " ++
    l.lastName.getD "")

/-- `lor.get('recommendationDate', '').split('T')[0]`. -/
def lorDate (l : Lor) : String :=
  ⟨(l.recommendationDate.getD "").data.takeWhile (fun c => c ≠ 'T')⟩

/-- `fee.get('displayDescription', 'Unknown')`. -/
def feeText (f : Fee) : String := f.displayDescription.getD "Unknown"

/-- The message block of `display_status` (header plus indented text when a
non-empty cleaned message exists). -/
def msgLines (app : RawApp) : List String :=
  if messageText app = "" then []
  else ["💬 Message:", "   " ++ messageText app]

/-- The checklist block of `display_status`: one line per item with its
completion icon and `item.get('item')`. -/
def checklistLines (app : RawApp) : List String :=
  if app.checklist.isEmpty then []
  else
    "✓ Checklist:" ::
      app.checklist.map (fun it =>
        "  " ++ (if it.isCompleted then "✅" else "⬜") ++ " " ++ optStr it.item)

/-- One letter-of-recommendation line of `display_status`. -/
def lorLine (l : Lor) : String :=
  "  • " ++ lorName l ++ " - " ++ lorDate l ++ " (Signed: " ++
    (if l.signatureFlag then "✓" else "✗") ++ ")"

/-- The letters-of-recommendation block of `display_status`. -/
def lorLines (app : RawApp) : List String :=
  if app.lor.isEmpty then []
  else
    ("📝 Letters of Recommendation: " ++ natRepr app.lor.length ++ " submitted") ::
      app.lor.map lorLine

/-- The fee block of `display_status` (`if fees and fees[0]:`). -/
def feeLines (app : RawApp) : List String :=
  match app.fee with
  | some f :: _ =>
    ("💰 Application Fee: " ++ feeText f) ::
      (if f.waivedFlag then ["   (Waived)"] else [])
  | _ => []

/-- The scholarship block of `display_status`
(`if scholarships and scholarships[0] and
scholarships[0].get('scholarshipTypeName'):`). -/
def schLines (app : RawApp) : List String :=
  match app.scholarship with
  | some s :: _ =>
    (match s.scholarshipTypeName with
     | some n =>
       if n = "" then []
       else
         ("🎓 Scholarship: " ++ n) ::
           (if 0 < s.amount then ["   Amount: $" ++ natRepr s.amount] else [])
     | none => [])
  | _ => []

/-- The lines `display_status` prints for one application. -/
def appLines (app : RawApp) : List String :=
  sepDash ::
    ("🎓 Program: " ++ optStr app.applicationTitle) ::
    ("📊 Status: " ++ displayStatusText app) ::
    (msgLines app ++ checklistLines app ++ lorLines app ++ feeLines app ++
      schLines app)

/-- The profile lines `display_status` prints. -/
def profileLines (p : Profile) : List String :=
  ("📋 Applicant: " ++ optStr p.firstName ++ " " ++ optStr p.lastName) ::
    ("📧 Email: " ++ optStr p.emailAddress) ::
    ("🆔 LSAC Account: " ++ optStr p.lsacAcctNo) ::
    (if p.finalTranscript then ["📄 Final Transcript: ✅ Received"] else [])

/-- `display_status(data, school_name)`: the printed lines, in print
order. -/
def display_status (data : RawData) (school_name : String) : List String :=
  sepEq :: ("📍 " ++ school_name) :: sepEq ::
    (profileLines data.profile ++ listFlatMap appLines data.applicationStatus ++
      [sepEq])

/-- The lines `main` prints for one detected change inside the alert
block. -/
def changeLines : Change → List String
  | .statusEv program old new =>
      ["📊 Status Update - " ++ optStr program,
       "   Old: " ++ old,
       "   New: " ++ new]
  | .checklistEv program items_completed =>
      ["✅ Checklist Progress - " ++ optStr program,
       "   " ++ natRepr items_completed ++ " new item(s) completed!"]

/-- The alert block `main` prints when `changes` is non-empty. -/
def alertBlock (school_name : String) (changes : List Change) : List String :=
  if changes.isEmpty then []
  else
    bannerLine ::
      ("🎉 CHANGES DETECTED FOR " ++ strUpper school_name ++ "!") ::
      bannerLine ::
      listFlatMap changeLines changes ++ [bannerLine]

/-- The outcome of `checker.get_status(school_guid)` as seen by the `try`
of the per-school loop: the parsed response, or one of the three `except`
branches — an `HTTPError` whose text contains `400` (the invalid-GUID
message names only the school), another `HTTPError` (its text `e` is
echoed), or any other exception (its text `e` is echoed). -/
inductive FetchOutcome where
  | ok (data : RawData)
  | invalidGuid
  | httpError (e : String)
  | exceptionText (e : String)
  deriving DecidableEq, Repr

/-- One iteration of the per-school loop of `main`: the printed lines, the
change list `check_for_changes` returned, and the history document after
`save_status_history`.  The failure outcomes print the corresponding error
line and skip the rest of the body, leaving the history untouched. -/
def checkSchool (history : Option HistoryDoc) (school_name : String)
    (fetch : FetchOutcome) (now : String) :
    List String × List Change × Option HistoryDoc :=
  let fetchLine := "Fetching status for " ++ school_name ++ "..."
  match fetch with
  | .invalidGuid =>
    ([fetchLine, "❌ Invalid GUID for " ++ school_name ++ " - check your schools.txt"],
     [], history)
  | .httpError e =>
    ([fetchLine, "❌ HTTP error for " ++ school_name ++ ": " ++ e], [], history)
  | .exceptionText e =>
    ([fetchLine, "❌ Error checking " ++ school_name ++ ": " ++ e], [], history)
  | .ok data =>
    let changes := check_for_changes history school_name data
    (fetchLine :: (alertBlock school_name changes ++ display_status data school_name),
     changes,
     some (save_status_history (history.getD []) school_name data now))

/-- The whole per-school loop of `main` over `schools.items()`: concatenated
output lines, the change list of every school in order, and the final
history document. -/
def runSchools (history : Option HistoryDoc) (now : String) :
    List (String × FetchOutcome) →
    List String × List (String × List Change) × Option HistoryDoc
  | [] => ([], [], history)
  | (school_name, fetch) :: rest =>
    let step := checkSchool history school_name fetch now
    let tail := runSchools step.2.2 now rest
    (step.1 ++ tail.1, (school_name, step.2.1) :: tail.2.1, tail.2.2)

/-- One line of the closing summary of `main`. -/
def summaryChangeLine : Change → String
  | .statusEv program old new =>
      "  📊 Status Change - " ++ optStr program ++ ": " ++ old ++ " -> " ++ new
  | .checklistEv program items_completed =>
      "  ✅ Checklist Progress - " ++ optStr program ++ ": " ++
        natRepr items_completed ++ " new item(s) completed"

/-- The closing block of `main`: the per-school summary when `changes_log`
is non-empty, the no-changes line otherwise. -/
def summaryLines (results : List (String × List Change)) : List String :=
  let changes_log := results.filter (fun e => !e.2.isEmpty)
  if changes_log.isEmpty then ["No changes detected across all schools."]
  else
    "Summary of Changes Detected:" ::
      listFlatMap (fun e => ("🏫 " ++ e.1 ++ ":") :: e.2.map summaryChangeLine)
        changes_log

/-- The captured output of `main` (per-school loop, closing summary and the
final constant line), with the per-school change lists and final history. -/
def mainRun (history : Option HistoryDoc) (now : String)
    (targets : List (String × FetchOutcome)) :
    List String × List (String × List Change) × Option HistoryDoc :=
  let r := runSchools history now targets
  (r.1 ++ summaryLines r.2.1 ++ ["✅ Done!"], r.2.1, r.2.2)

/-- `has_changes = '🚨' in output` from `lambda_handler`. -/
def lambdaHasChanges (output : List String) : Bool :=
  output.any (fun line => line.data.contains '🚨')

/-- Whether a string is free of the alarm character `🚨`. -/
def alarmFree (s : String) : Bool := !(s.data.contains '🚨')

/-- Whether every data string `display_status` echoes for one application —
program title, status text, cleaned message, checklist item texts,
recommender names and dates, fee description, scholarship name — is free of
the alarm character.  (Numeric renderings are alarm-free by construction and
need no hypothesis.) -/
def cleanApp (app : RawApp) : Bool :=
  alarmFree (optStr app.applicationTitle) &&
  alarmFree (displayStatusText app) &&
  alarmFree (messageText app) &&
  app.checklist.all (fun it => alarmFree (optStr it.item)) &&
  app.lor.all (fun l => alarmFree (lorName l) && alarmFree (lorDate l)) &&
  app.fee.all (fun f =>
    match f with
    | none => true
    | some f => alarmFree (feeText f)) &&
  app.scholarship.all (fun s =>
    match s with
    | none => true
    | some s => alarmFree (s.scholarshipTypeName.getD ""))

/-- Whether every echoed profile field is free of the alarm character. -/
def cleanProfile (p : Profile) : Bool :=
  alarmFree (optStr p.firstName) && alarmFree (optStr p.lastName) &&
  alarmFree (optStr p.emailAddress) && alarmFree (optStr p.lsacAcctNo)

/-- Whether every data string a fetched response can echo is free of the
alarm character. -/
def cleanData (d : RawData) : Bool :=
  cleanProfile d.profile && d.applicationStatus.all cleanApp

/-- Whether a target's name, its fetched data strings, and any echoed
exception text are free of the alarm character. -/
def cleanTarget : String × FetchOutcome → Bool
  | (school_name, .ok data) => alarmFree school_name && cleanData data
  | (school_name, .invalidGuid) => alarmFree school_name
  | (school_name, .httpError e) => alarmFree school_name && alarmFree e
  | (school_name, .exceptionText e) => alarmFree school_name && alarmFree e

/-! ## Concrete run data used by witnesses

The scenario of the spec's testable properties: target `Alpha`, previous
snapshot `[{program: "JD", status: "Submitted", done: 2, total: 5}]`,
current `[{program: "JD", status: "Under Review", done: 3, total: 5}]`. -/

/-- Previous `JD` application record for the witness scenario. -/
def exPrevApp : OldApp :=
  { program := some "JD", status := "Submitted"
    checklist_complete := 2, checklist_total := 5 }

/-- Previous snapshot for the witness scenario. -/
def exPrevInfo : StatusInfo :=
  { timestamp := "t0", school_id := some 1, applications := [exPrevApp] }

/-- Current `JD` application for the witness scenario: status
`Under Review`, 3 of 5 checklist items complete. -/
def exCurApp : RawApp :=
  { applicationTitle := some "JD"
    status := [{ statusDisplayDescription := some "Under Review" }]
    checklist :=
      [{ isCompleted := true, item := some "Application fee" },
       { isCompleted := true, item := some "Transcript" },
       { isCompleted := true, item := some "Personal statement" },
       { isCompleted := false, item := some "Letters of Recommendation" },
       { isCompleted := false, item := some "Interview" }]
    message := none
    lor := []
    fee := []
    scholarship := [] }

/-- Applicant profile for the witness scenario. -/
def exProfile : Profile :=
  { firstName := some "Jane", lastName := some "Doe"
    emailAddress := some "jane.doe@example.com"
    lsacAcctNo := some "L12345678", finalTranscript := true }

/-- Current vendor response for the witness scenario. -/
def exCurData : RawData :=
  { schoolId := some 1, profile := exProfile, applicationStatus := [exCurApp] }

/-- A response whose profile dict is absent (every field missing). -/
def emptyProfile : Profile :=
  { firstName := none, lastName := none, emailAddress := none
    lsacAcctNo := none, finalTranscript := false }

/-- A response with no applications and no profile. -/
def exEmptyData : RawData :=
  { schoolId := none, profile := emptyProfile, applicationStatus := [] }

/-! ## Change-detector lemmas -/

/-- The status comparison of one loop iteration, isolated by filtering. -/
theorem filter_statusEv_appChanges (app : RawApp) (old_app : OldApp) :
    (appChanges app old_app).filter Change.isStatusEv =
      (if old_app.status = currentStatus app then []
       else [Change.statusEv app.applicationTitle old_app.status (currentStatus app)]) := by
  by_cases h : old_app.status = currentStatus app <;>
    by_cases h2 : old_app.checklist_complete < checklistComplete app <;>
      simp [appChanges, h, h2, Change.isStatusEv]

/-- The checklist comparison of one loop iteration, isolated by filtering. -/
theorem filter_checklistEv_appChanges (app : RawApp) (old_app : OldApp) :
    (appChanges app old_app).filter Change.isChecklistEv =
      (if old_app.checklist_complete < checklistComplete app then
        [Change.checklistEv app.applicationTitle
          (checklistComplete app - old_app.checklist_complete)]
       else []) := by
  by_cases h : old_app.status = currentStatus app <;>
    by_cases h2 : old_app.checklist_complete < checklistComplete app <;>
      simp [appChanges, h, h2, Change.isChecklistEv]

/-- The status events of the comparison loop are exactly the differing
status texts over the positional pairing of current and previous programs,
in current order. -/
theorem filter_statusEv_checkApps (apps : List RawApp) (olds : List OldApp) :
    (checkApps apps olds).filter Change.isStatusEv =
      (apps.zip olds).filterMap (fun p =>
        if p.2.status = currentStatus p.1 then none
        else some (Change.statusEv p.1.applicationTitle p.2.status (currentStatus p.1))) := by
  induction apps generalizing olds with
  | nil => cases olds <;> simp [checkApps]
  | cons a rest ih =>
    cases olds with
    | nil => simp [checkApps]
    | cons o os =>
      simp only [checkApps, List.filter_append, filter_statusEv_appChanges, ih,
        List.zip_cons_cons, List.filterMap_cons]
      by_cases h : o.status = currentStatus a <;> simp [h]

/-- The checklist events of the comparison loop are exactly the strict
increases of the completed count over the positional pairing, in current
order, with delta `new - old`. -/
theorem filter_checklistEv_checkApps (apps : List RawApp) (olds : List OldApp) :
    (checkApps apps olds).filter Change.isChecklistEv =
      (apps.zip olds).filterMap (fun p =>
        if p.2.checklist_complete < checklistComplete p.1 then
          some (Change.checklistEv p.1.applicationTitle
            (checklistComplete p.1 - p.2.checklist_complete))
        else none) := by
  induction apps generalizing olds with
  | nil => cases olds <;> simp [checkApps]
  | cons a rest ih =>
    cases olds with
    | nil => simp [checkApps]
    | cons o os =>
      simp only [checkApps, List.filter_append, filter_checklistEv_appChanges, ih,
        List.zip_cons_cons, List.filterMap_cons]
      by_cases h : o.checklist_complete < checklistComplete a <;> simp [h]

/-- Every checklist event produced by the loop has a positive delta. -/
theorem checklistEv_delta_pos (apps : List RawApp) (olds : List OldApp)
    (program : Option String) (d : Nat)
    (h : Change.checklistEv program d ∈ checkApps apps olds) : 0 < d := by
  induction apps generalizing olds with
  | nil => cases olds <;> simp [checkApps] at h
  | cons a rest ih =>
    cases olds with
    | nil => simp [checkApps] at h
    | cons o os =>
      simp only [checkApps, List.mem_append] at h
      rcases h with h | h
      · simp only [appChanges, List.mem_append] at h
        rcases h with h | h
        · split at h <;> simp_all
        · split at h <;> simp_all
      · exact ih os h

/-! ## Claim C1 -/

/-- C1: with no prior snapshot for the target — no readable history document,
or a document without an entry for the target name — `check_for_changes`
returns the empty change list, whatever the current snapshot contains. -/
theorem no_previous_snapshot_yields_no_changes :
    (∀ (school_name : String) (data : RawData),
      check_for_changes none school_name data = []) ∧
    (∀ (history : HistoryDoc) (school_name : String) (data : RawData),
      List.lookup school_name history = none →
      check_for_changes (some history) school_name data = []) := by
  refine ⟨fun _ _ => rfl, fun history school_name data h => ?_⟩
  simp [check_for_changes, h]

/-- C1 witness: a history document holding only another school counts as "no
prior snapshot" and yields no changes for `Alpha`. -/
theorem no_previous_snapshot_yields_no_changes_witness :
    check_for_changes (some [("Beta", exPrevInfo)]) "Alpha" exCurData = [] :=
  no_previous_snapshot_yields_no_changes.2 [("Beta", exPrevInfo)] "Alpha" exCurData
    (by decide)

/-! ## Claim C2 -/

/-- C2: with a prior snapshot, the `StatusChanged` events are exactly the
positions of the positional pairing of current and previous programs whose
status texts differ, in current program order; positions beyond the shorter
list (`zip` truncates to it) produce nothing, and a comparison with an empty
side produces nothing at all. -/
theorem statusChanged_iff_status_text_differs
    (history : HistoryDoc) (school_name : String) (data : RawData)
    (old_status : StatusInfo)
    (hlook : List.lookup school_name history = some old_status) :
    ((check_for_changes (some history) school_name data).filter Change.isStatusEv =
      (data.applicationStatus.zip old_status.applications).filterMap (fun p =>
        if p.2.status = currentStatus p.1 then none
        else some (Change.statusEv p.1.applicationTitle p.2.status (currentStatus p.1)))) ∧
    (∀ apps : List RawApp, checkApps apps [] = []) ∧
    (∀ olds : List OldApp, checkApps [] olds = []) := by
  refine ⟨?_, fun apps => by cases apps <;> rfl, fun olds => by cases olds <;> rfl⟩
  simp [check_for_changes, hlook, filter_statusEv_checkApps]

/-- C2 witness: the spec scenario `Submitted → Under Review` produces exactly
one `StatusChanged` event at the paired index. -/
theorem statusChanged_iff_status_text_differs_witness :
    (check_for_changes (some [("Alpha", exPrevInfo)]) "Alpha" exCurData).filter
        Change.isStatusEv =
      [Change.statusEv (some "JD") "Submitted" "Under Review"] := by
  have h := (statusChanged_iff_status_text_differs [("Alpha", exPrevInfo)] "Alpha"
    exCurData exPrevInfo (by decide)).1
  rw [h]; decide

/-! ## Claim C3 -/

/-- C3: with a prior snapshot, the `ChecklistAdvanced` events are exactly the
positions of the positional pairing whose completed count strictly increased
— so a position with `new_complete ≤ old_complete` contributes none, and a
strict increase contributes exactly one event with delta
`new_complete - old_complete` — and every emitted delta is positive. -/
theorem checklistAdvanced_monotonic
    (history : HistoryDoc) (school_name : String) (data : RawData)
    (old_status : StatusInfo)
    (hlook : List.lookup school_name history = some old_status) :
    ((check_for_changes (some history) school_name data).filter Change.isChecklistEv =
      (data.applicationStatus.zip old_status.applications).filterMap (fun p =>
        if p.2.checklist_complete < checklistComplete p.1 then
          some (Change.checklistEv p.1.applicationTitle
            (checklistComplete p.1 - p.2.checklist_complete))
        else none)) ∧
    (∀ (program : Option String) (d : Nat),
      Change.checklistEv program d ∈ check_for_changes (some history) school_name data →
      0 < d) := by
  constructor
  · simp [check_for_changes, hlook, filter_checklistEv_checkApps]
  · intro program d h
    simp only [check_for_changes, hlook] at h
    exact checklistEv_delta_pos _ _ program d h

/-- C3 witness: the spec scenario (2 of 5 → 3 of 5 complete) produces exactly
one `ChecklistAdvanced` event with positive delta 1. -/
theorem checklistAdvanced_monotonic_witness :
    (check_for_changes (some [("Alpha", exPrevInfo)]) "Alpha" exCurData).filter
        Change.isChecklistEv =
      [Change.checklistEv (some "JD") 1] := by
  have h := (checklistAdvanced_monotonic [("Alpha", exPrevInfo)] "Alpha"
    exCurData exPrevInfo (by decide)).1
  rw [h]; decide

/-! ## Claim C4 -/

/-- C4: the notification decision sends whenever there are changes; with no
changes it never sends outside hour 9; and with no changes at hour 9 it sends
exactly when there is no prior tracking state, the stored timestamp does not
parse, or the parsed last-sent instant lies before today's 9:00 minus 24
hours (yesterday's 9:00 boundary). -/
theorem notification_decision_cases (has_changes : Bool) (now : Nat)
    (last_email_sent : Option (Option Int)) :
    (has_changes = true →
      (should_send_email has_changes now last_email_sent).1 = true) ∧
    (has_changes = false → hourOf now ≠ NO_CHANGE_EMAIL_HOUR →
      (should_send_email has_changes now last_email_sent).1 = false) ∧
    (has_changes = false → hourOf now = NO_CHANGE_EMAIL_HOUR →
      ((should_send_email has_changes now last_email_sent).1 = true ↔
        last_email_sent = none ∨ last_email_sent = some none ∨
        ∃ t : Int, last_email_sent = some (some t) ∧
          t < (today9am now : Int) - 86400)) := by
  refine ⟨fun h => by simp [should_send_email, h], fun h h9 => ?_, fun h h9 => ?_⟩
  · simp [should_send_email, h, h9]
  · match last_email_sent with
    | none => simp [should_send_email, h, h9]
    | some none => simp [should_send_email, h, h9]
    | some (some t) =>
      by_cases ht : t < (today9am now : Int) - 86400 <;>
        simp [should_send_email, h, h9, ht]

/-- C4 witness: at 9:00 local (instant 32400 of day 0) with no changes, no
prior tracking state yields a send. -/
theorem notification_decision_cases_witness :
    (should_send_email false 32400 none).1 = true :=
  ((notification_decision_cases false 32400 none).2.2 rfl (by decide)).mpr
    (Or.inl rfl)

/-! ## Claim C5 -/

/-- C5 counterexample: a parseable record whose `expires_at` lies strictly in
the future (100 > 0 = now) but which lacks the `token` value makes
`load_token` raise `KeyError` at `data['token']` — it neither returns the
no-token outcome the claim requires of a malformed record nor the usable
token it requires of an unexpired one. -/
theorem load_token_missing_token_field_raises :
    load_token (some { token := none, guid := none, expires_at := some 100 }) 0 =
      Except.error "KeyError" ∧ (0 : Int) < 100 := by
  exact ⟨rfl, by decide⟩

/-- C5 amended: `load_token` returns the no-token outcome, without raising,
whenever the record is absent/unreadable/empty or its `expires_at` (defaulted
to 0 when missing) is ≤ now; for a record with `expires_at` strictly in the
future that carries token and guid values it returns the usable token.  (An
unexpired record missing either value raises `KeyError` instead.) -/
theorem load_token_amended (stored : Option TokenData) (now : Int) :
    (stored = none → load_token stored now = Except.ok none) ∧
    (∀ d : TokenData, stored = some d → d.expires_at.getD 0 ≤ now →
      load_token stored now = Except.ok none) ∧
    (∀ (d : TokenData) (t g : String), stored = some d →
      now < d.expires_at.getD 0 → d.token = some t → d.guid = some g →
      load_token stored now = Except.ok (some (t, g))) := by
  refine ⟨fun h => by simp [load_token, h], fun d hd hexp => ?_, ?_⟩
  · simp [load_token, hd, hexp]
  · intro d t g hd hexp ht hg
    simp [load_token, hd, ht, hg, not_le.mpr hexp]

/-- C5 witness: an unexpired complete record (expiry 3600, now 0) loads as a
usable token, and an expired one (expiry 3600, now 3600) as the no-token
outcome. -/
theorem load_token_amended_witness :
    load_token (some { token := some "tok", guid := some "gd", expires_at := some 3600 }) 0 =
      Except.ok (some ("tok", "gd")) ∧
    load_token (some { token := some "tok", guid := some "gd", expires_at := some 3600 }) 3600 =
      Except.ok none :=
  ⟨(load_token_amended
      (some { token := some "tok", guid := some "gd", expires_at := some 3600 }) 0).2.2
      _ "tok" "gd" rfl (by decide) rfl rfl,
   (load_token_amended
      (some { token := some "tok", guid := some "gd", expires_at := some 3600 }) 3600).2.1
      _ rfl (by decide)⟩

/-! ## Claim C6 -/

/-- C6 counterexample: a token such as `x.e30.y`, whose middle part decodes
to the JSON payload `{}` (a decodable claims token with no `exp` claim),
is persisted with `expires_at = None` — the stored record carries no definite
expiry timestamp, contradicting the claim's "in every case". -/
theorem save_token_no_exp_claim_stores_no_expiry :
    (save_token_payload "x.e30.y" "gd" (some { exp := none }) 0).expires_at = none :=
  rfl

/-- C6 amended: when the token does not decode as a claims token the stored
`expires_at` is now + 24 hours; when it decodes, the stored `expires_at` is
exactly the payload's `exp` claim — the embedded expiry when present, and the
indefinite `None` when the payload lacks one; token and guid are stored
unchanged in every case. -/
theorem save_token_expiry_amended (token guid : String)
    (decoded : Option JwtPayload) (now : Int) :
    (decoded = none →
      (save_token_payload token guid decoded now).expires_at = some (now + 24 * 60 * 60)) ∧
    (∀ payload : JwtPayload, decoded = some payload →
      (save_token_payload token guid decoded now).expires_at = payload.exp) ∧
    (save_token_payload token guid decoded now).token = token ∧
    (save_token_payload token guid decoded now).guid = guid := by
  refine ⟨fun h => by simp [save_token_payload, h],
    fun payload h => by simp [save_token_payload, h], rfl, rfl⟩

/-- C6 witness: an undecodable token stored at instant 0 gets expiry 86400,
and a decodable payload with `exp = 777` gets expiry 777. -/
theorem save_token_expiry_amended_witness :
    (save_token_payload "plain-token" "gd" none 0).expires_at = some 86400 ∧
    (save_token_payload "x.y.z" "gd" (some { exp := some 777 }) 0).expires_at =
      some 777 :=
  ⟨(save_token_expiry_amended "plain-token" "gd" none 0).1 rfl,
   (save_token_expiry_amended "x.y.z" "gd" (some { exp := some 777 }) 0).2.1
      { exp := some 777 } rfl⟩

/-! ## Claim C10 -/

/-- Looking up the written key after a dict assignment yields the new
value. -/
theorem lookup_dictInsert_self {α : Type} (l : List (String × α)) (k : String)
    (v : α) : List.lookup k (dictInsert l k v) = some v := by
  induction l with
  | nil => simp [dictInsert, List.lookup_cons]
  | cons p rest ih =>
    obtain ⟨pk, pv⟩ := p
    by_cases h : pk = k
    · simp [dictInsert, h, List.lookup_cons]
    · simp [dictInsert, h, List.lookup_cons, beq_false_of_ne (Ne.symm h), ih]

/-- Looking up any other key after a dict assignment is unchanged. -/
theorem lookup_dictInsert_other {α : Type} (l : List (String × α)) (k k' : String)
    (v : α) (h : k' ≠ k) :
    List.lookup k' (dictInsert l k v) = List.lookup k' l := by
  induction l with
  | nil => simp [dictInsert, List.lookup_cons, beq_false_of_ne h]
  | cons p rest ih =>
    obtain ⟨pk, pv⟩ := p
    by_cases hp : pk = k
    · subst hp
      simp [dictInsert, List.lookup_cons, beq_false_of_ne h]
    · simp [dictInsert, hp, List.lookup_cons, ih]

/-- C10: writing a new snapshot for one school into a readable history
document changes exactly that school's entry — every other key keeps its
previous binding, and the written key maps to the freshly normalized
snapshot of the current data. -/
theorem save_status_history_frame (history : HistoryDoc) (school_name : String)
    (data : RawData) (now : String) :
    (∀ k : String, k ≠ school_name →
      List.lookup k (save_status_history history school_name data now) =
        List.lookup k history) ∧
    List.lookup school_name (save_status_history history school_name data now) =
      some (statusInfoOf now data) :=
  ⟨fun k hk => lookup_dictInsert_other history school_name k _ hk,
   lookup_dictInsert_self history school_name _⟩

/-! ## Claim C7 -/

/-- Characters before the first `'|'` are kept by the split. -/
theorem takeWhile_append_pipe (a b : List Char) (h : '|' ∉ a) :
    (a ++ '|' :: b).takeWhile notPipe = a := by
  induction a with
  | nil => simp [notPipe]
  | cons c rest ih =>
    simp only [List.mem_cons, not_or] at h
    have hc : notPipe c = true := by
      simp [notPipe]
      exact fun e => h.1 e.symm
    simp [List.takeWhile_cons, hc, ih h.2]

/-- Characters from the first `'|'` on are dropped into the right part. -/
theorem dropWhile_append_pipe (a b : List Char) (h : '|' ∉ a) :
    (a ++ '|' :: b).dropWhile notPipe = '|' :: b := by
  induction a with
  | nil => simp [notPipe]
  | cons c rest ih =>
    simp only [List.mem_cons, not_or] at h
    have hc : notPipe c = true := by
      simp [notPipe]
      exact fun e => h.1 e.symm
    simp [List.dropWhile_cons, hc, ih h.2]

/-- A list around a `'|'` contains `'|'`. -/
theorem contains_append_pipe (a b : List Char) :
    (a ++ '|' :: b).contains '|' = true := by
  induction a with
  | nil => simp
  | cons c rest ih => simp [ih]

/-- C7: a processed configuration line splitting as `a|b` at its first pipe
is parsed with left part `a` (stripped) as the school name — synthesized as
`School_<map size + 1>` when the stripped left part is empty — and right
part `b` (stripped) as the link, whose `guid=` parameter value, percent-
decoded exactly once, becomes the identifier; concretely, the spec's
scenario line maps `Yale Law School` to `abc=`, an empty name synthesizes
`School_1`, and `%253d` decodes exactly once to `%3d`. -/
theorem pipe_line_parsing :
    (∀ (schools : Schools) (prevLine : Option String) (rawLine a b : String),
      pyStrip rawLine = a ++ "|" ++ b →
      '|' ∉ a.data →
      strStartsWith (pyStrip rawLine) "#" = false →
      processLine schools prevLine rawLine =
        addEntry schools (if pyStrip a = "" then none else some (pyStrip a))
          (pyStrip b)) ∧
    load_schools_from_file ["Yale Law School | https://x/?guid=abc%3d"] =
      [("Yale Law School", "abc=")] ∧
    load_schools_from_file ["| https://x/?guid=xyz"] = [("School_1", "xyz")] ∧
    load_schools_from_file ["A | https://x/?guid=%253d"] = [("A", "%3d")] := by
  refine ⟨?_, by decide, by decide, by decide⟩
  intro schools prevLine rawLine a b hline hpipe hcomment
  have hdata : (pyStrip rawLine).data = a.data ++ '|' :: b.data := by
    rw [hline]
    simp [String.data_append]
  have hne : ¬ (pyStrip rawLine = "") := by
    intro h0
    rw [h0] at hdata
    have h1 : ([] : List Char) = a.data ++ '|' :: b.data := hdata
    simp at h1
  have hcont : containsChar (pyStrip rawLine) '|' = true := by
    rw [containsChar, hdata]
    exact contains_append_pipe _ _
  have hsplit : splitPipeOnce (pyStrip rawLine) = (a, b) := by
    simp only [splitPipeOnce, hdata, takeWhile_append_pipe _ _ hpipe,
      dropWhile_append_pipe _ _ hpipe, List.tail_cons]
  simp only [processLine, hne, hcomment, hcont, hsplit, Bool.false_eq_true,
    or_self, if_false, if_true]

/-- C7 witness: instantiating the split characterization on the line
`X | https://s/?guid=q%3D` yields the entry for `X` with the once-decoded
identifier. -/
theorem pipe_line_parsing_witness :
    processLine [] none "X | https://s/?guid=q%3D" = [("X", "q=")] := by
  have h := pipe_line_parsing.1 [] none "X | https://s/?guid=q%3D" "X "
    " https://s/?guid=q%3D" (by decide) (by decide) (by decide)
  rw [h]
  decide

/-! ## Claim C8 -/

/-- A line starting with `http` is neither empty nor a comment. -/
theorem startsWith_http_not_comment (l : String)
    (h : strStartsWith l "http" = true) :
    ¬ (l = "") ∧ strStartsWith l "#" = false := by
  obtain ⟨ld⟩ := l
  rw [strStartsWith, show ("http".data) = ['h', 't', 't', 'p'] from rfl] at h
  cases ld with
  | nil => simp [List.isPrefixOf] at h
  | cons c tl =>
    simp only [List.isPrefixOf, Bool.and_eq_true] at h
    have hc : c = 'h' := (eq_of_beq h.1).symm
    constructor
    · intro h0
      simpa using congrArg String.data h0
    · rw [strStartsWith, show ("#".data) = ['#'] from rfl]
      simp [List.isPrefixOf, hc]

/-- C8 counterexample: for the link line preceded by the comment `# note`,
the immediately preceding non-comment line `Alpha` exists and is neither
blank, a comment, nor a link, yet the parser does not use it as the name —
the code only inspects the physical previous line `lines[i-1]`, here the
comment, so the name is synthesized and `Alpha` is bound to nothing. -/
theorem http_line_preceding_comment_blocks_name :
    load_schools_from_file ["Alpha", "# note", "https://x/?guid=g3"] =
      [("School_1", "g3")] ∧
    List.lookup "Alpha"
      (load_schools_from_file ["Alpha", "# note", "https://x/?guid=g3"]) = none := by
  decide

/-- C8 amended: for a processed line starting with `http` (and containing no
pipe), the line becomes the link, and the name is taken from the immediately
preceding **physical** line exactly when that line exists and, stripped, is
neither blank, a comment, nor a link; concretely a name line directly above
the link is used, and a blank directly above the link yields no name. -/
theorem http_line_name_from_physical_previous_line :
    (∀ (schools : Schools) (prevLine : Option String) (rawLine : String),
      strStartsWith (pyStrip rawLine) "http" = true →
      containsChar (pyStrip rawLine) '|' = false →
      processLine schools prevLine rawLine =
        addEntry schools
          (match prevLine with
           | none => none
           | some p =>
             if pyStrip p ≠ "" ∧ ¬ strStartsWith (pyStrip p) "#" ∧
                 ¬ strStartsWith (pyStrip p) "http" then some (pyStrip p)
             else none)
          (pyStrip rawLine)) ∧
    load_schools_from_file ["Cooley Law School", "https://x/?guid=g1"] =
      [("Cooley Law School", "g1")] ∧
    load_schools_from_file ["   ", "https://x/?guid=g2"] = [("School_1", "g2")] := by
  refine ⟨?_, by decide, by decide⟩
  intro schools prevLine rawLine hhttp hnopipe
  obtain ⟨hne, hcomment⟩ := startsWith_http_not_comment _ hhttp
  simp only [processLine, hne, hcomment, hnopipe, hhttp, Bool.false_eq_true,
    or_self, if_false, if_true]

/-- C8 witness: a school-name line physically directly above the link line is
used as the name. -/
theorem http_line_name_from_physical_previous_line_witness :
    processLine [] (some "Cooley Law School") "https://s/?guid=z9" =
      [("Cooley Law School", "z9")] := by
  have h := http_line_name_from_physical_previous_line.1 []
    (some "Cooley Law School") "https://s/?guid=z9" (by decide) (by decide)
  rw [h]
  decide

/-- C10 witness: writing `Alpha` into a document holding `Beta` leaves
`Beta`'s entry unchanged, and `Alpha` maps to the normalized snapshot. -/
theorem save_status_history_frame_witness :
    List.lookup "Beta" (save_status_history [("Beta", exPrevInfo)] "Alpha" exCurData "t1") =
      some exPrevInfo ∧
    List.lookup "Alpha" (save_status_history [("Beta", exPrevInfo)] "Alpha" exCurData "t1") =
      some (statusInfoOf "t1" exCurData) :=
  ⟨by
    rw [(save_status_history_frame [("Beta", exPrevInfo)] "Alpha" exCurData "t1").1
      "Beta" (by decide)]
    decide,
   (save_status_history_frame [("Beta", exPrevInfo)] "Alpha" exCurData "t1").2⟩

/-! ## Claim C9 -/

/-- Alarm-freedom distributes over string concatenation. -/
theorem alarmFree_append (s t : String) :
    alarmFree (s ++ t) = (alarmFree s && alarmFree t) := by
  simp [alarmFree, String.data_append]

/-- The flag on a cons cell splits into the head line and the rest. -/
theorem hasChanges_cons (l : String) (out : List String) :
    lambdaHasChanges (l :: out) = (!(alarmFree l) || lambdaHasChanges out) := by
  simp [lambdaHasChanges, alarmFree]

/-- The flag on concatenated output is the disjunction of the parts. -/
theorem hasChanges_append (o p : List String) :
    lambdaHasChanges (o ++ p) = (lambdaHasChanges o || lambdaHasChanges p) := by
  simp [lambdaHasChanges]

/-- The flag is false exactly when every printed line is alarm-free. -/
theorem hasChanges_eq_false_iff (out : List String) :
    lambdaHasChanges out = false ↔ ∀ l ∈ out, alarmFree l = true := by
  simp [lambdaHasChanges, alarmFree]

/-- Membership in a concatenation of per-element lists. -/
theorem mem_listFlatMap {α β : Type} (f : α → List β) (l : List α) (b : β) :
    b ∈ listFlatMap f l ↔ ∃ a ∈ l, b ∈ f a := by
  induction l with
  | nil => simp [listFlatMap]
  | cons x xs ih => simp [listFlatMap, ih]

/-- Composing two alarm-free strings is alarm-free. -/
theorem alarmFree_and_append {s t : String} (hs : alarmFree s = true)
    (ht : alarmFree t = true) : alarmFree (s ++ t) = true := by
  simp [alarmFree_append, hs, ht]

/-- No digit character is the alarm character. -/
theorem digitChar_ne_alarm (d : Nat) : digitChar d ≠ '🚨' := by
  have h : ∀ m, m < 10 → Char.ofNat (48 + m) ≠ '🚨' := by decide
  exact h (d % 10) (Nat.mod_lt _ (by norm_num))

/-- The alarm character appears in no rendered digit string. -/
theorem alarm_not_mem_natReprAux (fuel n : Nat) : '🚨' ∉ natReprAux fuel n := by
  induction fuel generalizing n with
  | zero => simp [natReprAux]
  | succ f ih =>
    by_cases h : n < 10
    · simp only [natReprAux, if_pos h, List.mem_singleton]
      exact fun e => digitChar_ne_alarm n e.symm
    · simp only [natReprAux, if_neg h, List.mem_append, List.mem_singleton]
      intro hmem
      rcases hmem with hm | hm
      · exact ih _ hm
      · exact digitChar_ne_alarm _ hm.symm

/-- Numeric renderings are alarm-free without any hypothesis. -/
theorem alarmFree_natRepr (n : Nat) : alarmFree (natRepr n) = true := by
  simp only [alarmFree, natRepr, Bool.not_eq_true']
  simpa using alarm_not_mem_natReprAux (n + 1) n

/-- With an alarm-free cleaned message, the message block is alarm-free. -/
theorem msgLines_alarmFree (app : RawApp)
    (h : alarmFree (messageText app) = true) :
    ∀ l ∈ msgLines app, alarmFree l = true := by
  intro l hl
  rw [msgLines] at hl
  split at hl
  · simp at hl
  · simp only [List.mem_cons, List.not_mem_nil, or_false] at hl
    rcases hl with rfl | rfl
    · decide
    · exact alarmFree_and_append (by decide) h

/-- With alarm-free item texts, the checklist block is alarm-free. -/
theorem checklistLines_alarmFree (app : RawApp)
    (h : app.checklist.all (fun it => alarmFree (optStr it.item)) = true) :
    ∀ l ∈ checklistLines app, alarmFree l = true := by
  intro l hl
  rw [checklistLines] at hl
  split at hl
  · simp at hl
  · simp only [List.mem_cons] at hl
    rcases hl with rfl | hl
    · decide
    · rw [List.mem_map] at hl
      obtain ⟨it, hit, rfl⟩ := hl
      have hitem : alarmFree (optStr it.item) = true := by
        rw [List.all_eq_true] at h
        exact h it hit
      have hicon : alarmFree (if it.isCompleted then "✅" else "⬜") = true := by
        cases it.isCompleted <;> decide
      exact alarmFree_and_append
        (alarmFree_and_append (alarmFree_and_append (by decide) hicon) (by decide))
        hitem

/-- With alarm-free recommender names and dates, the LOR block is
alarm-free. -/
theorem lorLines_alarmFree (app : RawApp)
    (h : app.lor.all
      (fun l => alarmFree (lorName l) && alarmFree (lorDate l)) = true) :
    ∀ l ∈ lorLines app, alarmFree l = true := by
  intro l hl
  rw [lorLines] at hl
  split at hl
  · simp at hl
  · simp only [List.mem_cons] at hl
    rcases hl with rfl | hl
    · exact alarmFree_and_append
        (alarmFree_and_append (by decide) (alarmFree_natRepr _)) (by decide)
    · rw [List.mem_map] at hl
      obtain ⟨lr, hlr, rfl⟩ := hl
      have hcomp : alarmFree (lorName lr) = true ∧ alarmFree (lorDate lr) = true := by
        rw [List.all_eq_true] at h
        simpa [Bool.and_eq_true] using h lr hlr
      have hmark : alarmFree (if lr.signatureFlag then "✓" else "✗") = true := by
        cases lr.signatureFlag <;> decide
      rw [lorLine]
      exact alarmFree_and_append
        (alarmFree_and_append
          (alarmFree_and_append
            (alarmFree_and_append
              (alarmFree_and_append (alarmFree_and_append (by decide) hcomp.1)
                (by decide))
              hcomp.2)
            (by decide))
          hmark)
        (by decide)

/-- With an alarm-free fee description, the fee block is alarm-free. -/
theorem feeLines_alarmFree (app : RawApp)
    (h : app.fee.all
      (fun f => match f with | none => true | some f => alarmFree (feeText f)) = true) :
    ∀ l ∈ feeLines app, alarmFree l = true := by
  intro l hl
  rcases hfe : app.fee with _ | ⟨f?, rest⟩
  · simp [feeLines, hfe] at hl
  · rcases f? with _ | f
    · simp [feeLines, hfe] at hl
    · have hf : alarmFree (feeText f) = true := by
        rw [List.all_eq_true] at h
        simpa using h (some f) (by rw [hfe]; exact List.mem_cons_self _ _)
      simp only [feeLines, hfe, List.mem_cons] at hl
      rcases hl with rfl | hl
      · exact alarmFree_and_append (by decide) hf
      · cases hw : f.waivedFlag <;> simp [hw] at hl
        subst hl
        decide

/-- With an alarm-free scholarship name, the scholarship block is
alarm-free. -/
theorem schLines_alarmFree (app : RawApp)
    (h : app.scholarship.all
      (fun s => match s with
        | none => true
        | some s => alarmFree (s.scholarshipTypeName.getD "")) = true) :
    ∀ l ∈ schLines app, alarmFree l = true := by
  intro l hl
  rcases hse : app.scholarship with _ | ⟨s?, rest⟩
  · simp [schLines, hse] at hl
  · rcases s? with _ | s
    · simp [schLines, hse] at hl
    · have hs : alarmFree (s.scholarshipTypeName.getD "") = true := by
        rw [List.all_eq_true] at h
        simpa using h (some s) (by rw [hse]; exact List.mem_cons_self _ _)
      rcases hn : s.scholarshipTypeName with _ | n
      · simp [schLines, hse, hn] at hl
      · rw [hn] at hs
        by_cases h0 : n = ""
        · simp [schLines, hse, hn, h0] at hl
        · simp only [schLines, hse, hn, if_neg h0, List.mem_cons] at hl
          rcases hl with rfl | hl
          · exact alarmFree_and_append (by decide) hs
          · by_cases ha : 0 < s.amount <;> simp [ha] at hl
            subst hl
            exact alarmFree_and_append (by decide) (alarmFree_natRepr _)

/-- With clean application data, every line `display_status` prints for the
application is alarm-free. -/
theorem appLines_alarmFree (app : RawApp) (h : cleanApp app = true) :
    ∀ l ∈ appLines app, alarmFree l = true := by
  simp only [cleanApp, Bool.and_eq_true] at h
  obtain ⟨⟨⟨⟨⟨⟨htitle, hstatus⟩, hmsg⟩, hchk⟩, hlor⟩, hfee⟩, hsch⟩ := h
  intro l hl
  simp only [appLines, List.mem_cons, List.mem_append] at hl
  rcases hl with rfl | rfl | rfl | ((((hm | hc) | hlr) | hf) | hs)
  · decide
  · exact alarmFree_and_append (by decide) htitle
  · exact alarmFree_and_append (by decide) hstatus
  · exact msgLines_alarmFree app hmsg l hm
  · exact checklistLines_alarmFree app hchk l hc
  · exact lorLines_alarmFree app hlor l hlr
  · exact feeLines_alarmFree app hfee l hf
  · exact schLines_alarmFree app hsch l hs

/-- With clean profile fields, the profile lines are alarm-free. -/
theorem profileLines_alarmFree (p : Profile) (h : cleanProfile p = true) :
    ∀ l ∈ profileLines p, alarmFree l = true := by
  simp only [cleanProfile, Bool.and_eq_true] at h
  obtain ⟨⟨⟨h1, h2⟩, h3⟩, h4⟩ := h
  intro l hl
  simp only [profileLines, List.mem_cons] at hl
  rcases hl with rfl | rfl | rfl | hl
  · exact alarmFree_and_append
      (alarmFree_and_append (alarmFree_and_append (by decide) h1) (by decide)) h2
  · exact alarmFree_and_append (by decide) h3
  · exact alarmFree_and_append (by decide) h4
  · cases hft : p.finalTranscript <;> simp [hft] at hl
    subst hl
    decide

/-- With an alarm-free name and clean data, every line of `display_status`
is alarm-free. -/
theorem display_status_alarmFree (data : RawData) (school_name : String)
    (hname : alarmFree school_name = true)
    (hdata : cleanData data = true) :
    ∀ l ∈ display_status data school_name, alarmFree l = true := by
  simp only [cleanData, Bool.and_eq_true] at hdata
  intro l hl
  simp only [display_status, List.mem_cons, List.mem_append, mem_listFlatMap,
    List.not_mem_nil, or_false, List.mem_singleton] at hl
  rcases hl with rfl | rfl | rfl | (hp | ⟨app, happ, hl⟩) | rfl
  · decide
  · exact alarmFree_and_append (by decide) hname
  · decide
  · exact profileLines_alarmFree _ hdata.1 l hp
  · have hcl : cleanApp app = true := by
      have := hdata.2
      rw [List.all_eq_true] at this
      exact this app happ
    exact appLines_alarmFree app hcl l hl
  · decide

/-- For a clean target, one iteration of the per-school loop prints an alarm
character exactly when its change list is non-empty. -/
theorem checkSchool_alarm_iff (history : Option HistoryDoc) (school_name : String)
    (fetch : FetchOutcome) (now : String)
    (hclean : cleanTarget (school_name, fetch) = true) :
    (lambdaHasChanges (checkSchool history school_name fetch now).1 = true ↔
      (checkSchool history school_name fetch now).2.1 ≠ []) := by
  match fetch with
  | .invalidGuid =>
    have hname : alarmFree school_name = true := hclean
    have h1 : alarmFree ("Fetching status for " ++ school_name ++ "...") = true :=
      alarmFree_and_append (alarmFree_and_append (by decide) hname) (by decide)
    have h2 : alarmFree
        ("❌ Invalid GUID for " ++ school_name ++ " - check your schools.txt") = true :=
      alarmFree_and_append (alarmFree_and_append (by decide) hname) (by decide)
    simp [checkSchool, hasChanges_cons, h1, h2,
      show lambdaHasChanges [] = false from rfl]
  | .httpError e =>
    simp only [cleanTarget, Bool.and_eq_true] at hclean
    have h1 : alarmFree ("Fetching status for " ++ school_name ++ "...") = true :=
      alarmFree_and_append (alarmFree_and_append (by decide) hclean.1) (by decide)
    have h2 : alarmFree ("❌ HTTP error for " ++ school_name ++ ": " ++ e) = true :=
      alarmFree_and_append
        (alarmFree_and_append (alarmFree_and_append (by decide) hclean.1) (by decide))
        hclean.2
    simp [checkSchool, hasChanges_cons, h1, h2,
      show lambdaHasChanges [] = false from rfl]
  | .exceptionText e =>
    simp only [cleanTarget, Bool.and_eq_true] at hclean
    have h1 : alarmFree ("Fetching status for " ++ school_name ++ "...") = true :=
      alarmFree_and_append (alarmFree_and_append (by decide) hclean.1) (by decide)
    have h2 : alarmFree ("❌ Error checking " ++ school_name ++ ": " ++ e) = true :=
      alarmFree_and_append
        (alarmFree_and_append (alarmFree_and_append (by decide) hclean.1) (by decide))
        hclean.2
    simp [checkSchool, hasChanges_cons, h1, h2,
      show lambdaHasChanges [] = false from rfl]
  | .ok data =>
    simp only [cleanTarget, Bool.and_eq_true] at hclean
    have h1 : alarmFree ("Fetching status for " ++ school_name ++ "...") = true :=
      alarmFree_and_append (alarmFree_and_append (by decide) hclean.1) (by decide)
    simp only [checkSchool]
    by_cases hc : check_for_changes history school_name data = []
    · rw [hc]
      have hdisp : lambdaHasChanges (display_status data school_name) = false :=
        (hasChanges_eq_false_iff _).mpr
          (display_status_alarmFree data school_name hclean.1 hclean.2)
      simp [alertBlock, hasChanges_cons, h1, hdisp]
    · obtain ⟨c, cs, hcons⟩ := List.exists_cons_of_ne_nil hc
      rw [hcons]
      have hbanner : (!(alarmFree bannerLine)) = true := by decide
      simp [alertBlock, hasChanges_cons, hbanner]

/-- Per-school-loop flag for clean targets: alarm iff some change list is
non-empty. -/
theorem runSchools_alarm_iff (history : Option HistoryDoc)
    (now : String) (targets : List (String × FetchOutcome))
    (hclean : targets.all cleanTarget = true) :
    (lambdaHasChanges (runSchools history now targets).1 = true ↔
      ∃ e ∈ (runSchools history now targets).2.1, e.2 ≠ []) := by
  induction targets generalizing history with
  | nil => simp [runSchools, lambdaHasChanges]
  | cons t rest ih =>
    obtain ⟨school_name, fetch⟩ := t
    simp only [List.all_cons, Bool.and_eq_true] at hclean
    simp only [runSchools, hasChanges_append, Bool.or_eq_true, List.mem_cons]
    rw [checkSchool_alarm_iff history school_name fetch now hclean.1,
      ih _ hclean.2]
    constructor
    · rintro (h | ⟨e, he, hne⟩)
      · exact ⟨(school_name, (checkSchool history school_name fetch now).2.1),
          Or.inl rfl, h⟩
      · exact ⟨e, Or.inr he, hne⟩
    · rintro ⟨e, (rfl | he), hne⟩
      · exact Or.inl hne
      · exact Or.inr ⟨e, he, hne⟩

/-- An alarm in the closing summary can only come from a school with a
non-empty change list (with all lists empty the summary is the constant
no-changes line). -/
theorem summaryLines_alarm_implies (results : List (String × List Change))
    (h : lambdaHasChanges (summaryLines results) = true) :
    ∃ e ∈ results, e.2 ≠ [] := by
  by_cases hf : (results.filter (fun e => !e.2.isEmpty)).isEmpty
  · rw [summaryLines] at h
    simp only [hf, if_true] at h
    exact absurd h (by decide)
  · cases hfe : results.filter (fun e => !e.2.isEmpty) with
    | nil => exact absurd (by rw [hfe]; rfl) hf
    | cons x xs =>
      have hx : x ∈ results.filter (fun e => !e.2.isEmpty) := by
        rw [hfe]
        exact List.mem_cons_self _ _
      rw [List.mem_filter] at hx
      refine ⟨x, hx.1, ?_⟩
      simpa using hx.2

/-- C9 counterexample: a run over one school named `A🚨` with an empty
current snapshot and no history produces no change for any target, yet the
captured output contains `🚨` (in the `Fetching status for …` line), so the
lambda's aggregate flag `has_changes = '🚨' in output` is true — the claimed
equivalence with "some target produced a non-empty change list" fails. -/
theorem emoji_in_school_name_fakes_changes :
    lambdaHasChanges (mainRun none "t0"
      [("A🚨", FetchOutcome.ok exEmptyData)]).1 = true ∧
    (mainRun none "t0" [("A🚨", FetchOutcome.ok exEmptyData)]).2.1 =
      [("A🚨", [])] := by
  decide

/-- C9 amended: provided no school name and no data string the output can
echo — profile fields, program titles, status texts, message text, checklist
item texts, recommender names and dates, fee and scholarship strings,
fetch-error text — contains the character `🚨`, the aggregate flag
`has_changes = '🚨' in output` is true exactly when some target produced a
non-empty change list during the run. -/
theorem has_changes_iff_some_nonempty_change_list (history : Option HistoryDoc)
    (now : String) (targets : List (String × FetchOutcome))
    (hclean : targets.all cleanTarget = true) :
    (lambdaHasChanges (mainRun history now targets).1 = true ↔
      ∃ e ∈ (mainRun history now targets).2.1, e.2 ≠ []) := by
  simp only [mainRun, hasChanges_append, Bool.or_eq_true,
    show lambdaHasChanges ["✅ Done!"] = false from by decide,
    Bool.false_eq_true, or_false]
  constructor
  · rintro (h | h)
    · exact (runSchools_alarm_iff history now targets hclean).mp h
    · exact summaryLines_alarm_implies _ h
  · intro h
    exact Or.inl ((runSchools_alarm_iff history now targets hclean).mpr h)

/-- C9 witness: a clean run over `Alpha` whose status moved from `Submitted`
to `Under Review` raises the aggregate flag. -/
theorem has_changes_iff_some_nonempty_change_list_witness :
    lambdaHasChanges (mainRun (some [("Alpha", exPrevInfo)]) "t1"
      [("Alpha", FetchOutcome.ok exCurData)]).1 = true :=
  (has_changes_iff_some_nonempty_change_list (some [("Alpha", exPrevInfo)]) "t1"
    [("Alpha", FetchOutcome.ok exCurData)] (by decide)).mpr (by decide)

end LSAC
